import Mathlib

/-!
Verification of the WhatsApp agent service (`main.py`, `waha_client.py`).

The Python source is shallowly embedded: strings are Lean `String`s handled
at the code-point level (`List Char`), Python `dict` stores become functions
into `Option`, the in-memory registries become explicit state records, and
every external call whose outcome the code branches on (task executor,
payment finalization, transport sends, mark-as-read HTTP call) is an
explicit `Except`-valued parameter.  The payment monitor release
(`stop_status_monitoring` plus registry removal) is embedded as a
non-raising operation, following the payment-orchestrator interface
(spec section 4.4: only status-check, request-creation and finalization
calls have failure semantics; section 8: stopping monitoring does not
raise).
-/

namespace WhatsappAgent

/-! ## Python string primitives (code-point semantics) -/

/-- Python whitespace as stripped by `str.strip()` and matched by `\s`
(ASCII subset: space, tab, newline, carriage return, vertical tab,
form feed). -/
def isPySpace (c : Char) : Bool :=
  c = ' ' || c = '\t' || c = '\n' || c = '\r' || c = '\x0b' || c = '\x0c'

/-- `s.strip()` on code points. -/
def pyStrip (s : String) : String :=
  String.mk (((s.toList.dropWhile isPySpace).reverse.dropWhile isPySpace).reverse)

/-- `s.lower()` (ASCII case folding, which is all the trigger check needs). -/
def pyLower (s : String) : String :=
  String.mk (s.toList.map Char.toLower)

/-- `s[:n]`. -/
def pyTake (s : String) (n : Nat) : String :=
  String.mk (s.toList.take n)

/-- `s[n:]`. -/
def pyDrop (s : String) (n : Nat) : String :=
  String.mk (s.toList.drop n)

/-- `len(s)`. -/
def pyLen (s : String) : Nat := s.toList.length

def listIsPrefixOf : List Char → List Char → Bool
  | [], _ => true
  | _ :: _, [] => false
  | a :: as, b :: bs => a = b && listIsPrefixOf as bs

/-- Python `needle in hay` on strings. -/
def pyIn (needle hay : String) : Bool :=
  go needle.toList hay.toList
where
  go (n : List Char) : List Char → Bool
    | [] => listIsPrefixOf n []
    | c :: rest => listIsPrefixOf n (c :: rest) || go n rest

/-- `s.startswith(p)`. -/
def pyStartsWith (s p : String) : Bool :=
  listIsPrefixOf p.toList s.toList

/-- `s.endswith(p)`. -/
def pyEndsWith (s p : String) : Bool :=
  listIsPrefixOf p.toList.reverse s.toList.reverse

/-- `s.rsplit(' ', 1)[0]`: everything before the last space, or the whole
string when it holds no space. -/
def pyRsplitSpaceHead (s : String) : String :=
  match s.toList.reverse.dropWhile (fun c => !(c = ' ')) with
  | [] => s
  | _ :: pre => String.mk pre.reverse

/-! ## Group-ID mapping (`main.py` lines 357-383) -/

/-- The hardcoded `known_groups` dict, in insertion (iteration) order. -/
def known_groups : List (String × String) :=
  [("nerds", "120363422170611614@g.us"),
   ("BTC-svip-76", "120363038777117231@g.us"),
   ("Golfing ⛳", "13065365236-1631906035@g.us"),
   ("Uber", "17059848341-1629060796@g.us"),
   ("Apple Tree-ers", "17059848341-1626995520@g.us")]

/-- Leftmost match of the regex `\d+@g\.us` in a character list: a maximal
nonempty digit run immediately followed by the literal `@g.us`. -/
def groupIdAt (cs : List Char) : Option (List Char) :=
  let d := cs.takeWhile Char.isDigit
  if d.isEmpty then none
  else if listIsPrefixOf "@g.us".toList (cs.drop d.length) then
    some (d ++ "@g.us".toList)
  else none

def findGroupIdChars : List Char → Option (List Char)
  | [] => none
  | c :: rest =>
    match groupIdAt (c :: rest) with
    | some m => some m
    | none => findGroupIdChars rest

/-- `re.findall(r'(\d+@g\.us)', s)[0]`, when a match exists. -/
def findGroupIdPattern (s : String) : Option String :=
  (findGroupIdChars s.toList).map String.mk

/-- `map_waha_internal_id_to_group_id(internal_id, webhook_data)`.
`webhookStr` stands for `str(webhook_data)`, the serialized event. -/
def map_waha_internal_id_to_group_id (internal_id : String) (webhookStr : String) : String :=
  match known_groups.find? (fun p => pyIn (pyLower p.1) (pyLower webhookStr)) with
  | some p => p.2
  | none =>
    match findGroupIdPattern webhookStr with
    | some g => g
    | none => internal_id

/-! ## Chat-ID resolution (`main.py` lines 424-438 and 548-553) -/

/-- Python truthiness of an optional string (`None` and `""` are falsy). -/
def pyTruthy : Option String → Bool
  | none => false
  | some s => !(s = "")

/-- The structural `from`/`to` resolution used both in the main path
(lines 427-438) and, verbatim, in the error path (lines 548-553). -/
def resolveChatId (fromField toField : Option String) : Option String :=
  if pyTruthy fromField && pyIn "@g.us" (fromField.getD "") then fromField
  else if pyTruthy toField && pyIn "@g.us" (toField.getD "") then toField
  else toField

/-- The post-resolution remapping guard (lines 450-452): only a truthy
identifier lacking both domain suffixes is passed to the mapper. -/
def remapChatId (chatId : Option String) (webhookStr : String) : Option String :=
  match chatId with
  | none => none
  | some c =>
    if !(c = "") && !(pyEndsWith c "@c.us" || pyEndsWith c "@g.us") then
      some (map_waha_internal_id_to_group_id c webhookStr)
    else some c

/-! ## Response shaping (`main.py` lines 500-511) -/

/-- The response-length budget (`max_response_length = 200`). -/
def max_response_length : Nat := 200

/-- Lines 502-503: over-budget text is cut to the first 200 code points,
then to everything before the last space of that cut, and `"..."` is
appended. -/
def truncateResponse (s : String) : String :=
  if max_response_length < pyLen s then
    pyRsplitSpaceHead (pyTake s max_response_length) ++ "..."
  else s

/-- Membership in the character class of the line-510 regex
`^[\U0001F600-\U0001F64F\U0001F300-\U0001F5FF\U0001F680-\U0001F6FF
\U0001F1E0-\U0001F1FF\U00002600-\U000027BF\U0001F900-\U0001F9FF
\U0001F018-\U0001F0FF\U0001F200-\U0001F2FF\s]*`. -/
def isLeadingStripChar (c : Char) : Bool :=
  (0x1F600 ≤ c.toNat && c.toNat ≤ 0x1F64F) ||
  (0x1F300 ≤ c.toNat && c.toNat ≤ 0x1F5FF) ||
  (0x1F680 ≤ c.toNat && c.toNat ≤ 0x1F6FF) ||
  (0x1F1E0 ≤ c.toNat && c.toNat ≤ 0x1F1FF) ||
  (0x2600 ≤ c.toNat && c.toNat ≤ 0x27BF) ||
  (0x1F900 ≤ c.toNat && c.toNat ≤ 0x1F9FF) ||
  (0x1F018 ≤ c.toNat && c.toNat ≤ 0x1F0FF) ||
  (0x1F200 ≤ c.toNat && c.toNat ≤ 0x1F2FF) ||
  isPySpace c

/-- `re.sub(r'^[...]*', '', s)`: delete the maximal leading run of
emoji/pictograph/whitespace characters. -/
def dropLeadingEmoji (s : String) : String :=
  String.mk (s.toList.dropWhile isLeadingStripChar)

/-- Lines 500-511 end to end: truncate, strip, delete the leading emoji
run, and wrap with the robot marker and italics underscores. -/
def shapeResponse (s : String) : String :=
  let t := truncateResponse s
  "🤖 _" ++ dropLeadingEmoji (pyStrip t) ++ "_"

/-! ## The `mark_as_read` call (`waha_client.py` 188, `main.py` 458) -/

/-- `WAHAClient.mark_as_read(self, message_id)` declares one parameter
besides `self`. -/
def mark_as_read_paramCount : Nat := 1

/-- `main.py` line 458 invokes it as `mark_as_read(message_id, chat_id)`:
two positional arguments. -/
def mark_as_read_argCount : Nat := 2

/-- Python call semantics: an arity mismatch raises `TypeError` before the
body runs; otherwise the call's own outcome stands. -/
def pyCallWithArity (params args : Nat) (body : Except String Unit) : Except String Unit :=
  if args = params then body else Except.error "TypeError"

/-- The mark-as-read attempt as invoked by the pipeline; `body` is the
outcome the HTTP call would have had. -/
def markAsReadCall (body : Except String Unit) : Except String Unit :=
  pyCallWithArity mark_as_read_paramCount mark_as_read_argCount body

/-! ## Webhook message pipeline (`main.py` lines 388-562) -/

/-- The fields of `webhook_data["payload"]` the pipeline reads
(log-only fields such as `fromMe` and `sender` are omitted). -/
structure Payload where
  id : Option String
  fromField : Option String
  toField : Option String
  msgType : Option String
  body : Option String
deriving Repr, DecidableEq

/-- A webhook event: its payload plus `raw`, standing for
`str(webhook_data)`, the serialization the group mapper scans. -/
structure WebhookData where
  payload : Payload
  raw : String
deriving Repr, DecidableEq

/-- Outcomes of the external calls a single pipeline run can make. -/
structure WahaOracle where
  markOk : Except String Unit
  execResult : Except String String
  sendMain : Except String Unit
  sendApology : Except String Unit

/-- One attempted `send_text_message` call. -/
structure SendAttempt where
  toAddr : Option String
  message : String
  replyTo : Option String
  ok : Bool
deriving Repr, DecidableEq

def exceptOk : Except String Unit → Bool
  | Except.ok _ => true
  | Except.error _ => false

/-- Observable outcome of one `process_waha_message` run: the dedup
registry afterwards, whether/how the mark-as-read attempt went, the
instructions passed to the task executor, the main send attempt, the
apology send attempt, and the final (logged) chat identifier. -/
structure PipelineResult where
  dedup : Finset (Option String)
  markAttempted : Bool
  markError : Option String
  execCalls : List String
  mainSend : Option SendAttempt
  apologySend : Option SendAttempt
  finalChatId : Option String

/-- A run that performed nothing beyond reading the registry. -/
def skippedRun (d : Finset (Option String)) : PipelineResult :=
  { dedup := d, markAttempted := false, markError := none, execCalls := [],
    mainSend := none, apologySend := none, finalChatId := none }

/-- `"❌ Sorry, I encountered an error..."` (line 558). -/
def apologyText : String :=
  "❌ Sorry, I encountered an error processing your message. Please try again later."

/-- The `except` block of `process_waha_message` (lines 537-562): the
destination is re-derived from `from`/`to` by the structural rules only —
the internal-ID remapping of lines 450-452 is not repeated — and the
apology send's own failure is swallowed. -/
def errorPathSend (o : WahaOracle) (pd : Payload) : Option SendAttempt :=
  match resolveChatId pd.fromField pd.toField with
  | none => none
  | some c =>
    if c = "" then none
    else some { toAddr := some c, message := apologyText, replyTo := pd.id,
                ok := exceptOk o.sendApology }

/-- `process_waha_message(webhook_data)` against registry `processed`.
`clientInit` is whether the module-level `waha_client` initialized. -/
def process_waha_message (clientInit : Bool) (o : WahaOracle) (ev : WebhookData)
    (processed : Finset (Option String)) : PipelineResult :=
  if clientInit = false then skippedRun processed
  else
    let pd := ev.payload
    let mid := pd.id
    if mid ∈ processed then skippedRun processed
    else
      let d1 := insert mid processed
      let d2 := if 1000 < d1.card then (∅ : Finset (Option String)) else d1
      let msgType := pd.msgType.getD "chat"
      let chatId := remapChatId (resolveChatId pd.fromField pd.toField) ev.raw
      let markError : Option String :=
        match markAsReadCall o.markOk with
        | Except.ok _ => none
        | Except.error e => some e
      let skip : PipelineResult :=
        { dedup := d2, markAttempted := true, markError := markError,
          execCalls := [], mainSend := none, apologySend := none,
          finalChatId := chatId }
      if !(msgType = "text" || msgType = "chat") then skip
      else
        let message_text := pd.body.getD ""
        if pyStrip message_text = "" then skip
        else if !(pyStartsWith (pyLower message_text) "gg") then skip
        else
          let clean_message := pyStrip (pyDrop message_text 2)
          if clean_message = "" then skip
          else
            match o.execResult with
            | Except.error _ =>
              { skip with execCalls := [clean_message],
                          apologySend := errorPathSend o pd }
            | Except.ok resultRaw =>
              let formatted := shapeResponse resultRaw
              match o.sendMain with
              | Except.ok _ =>
                { skip with execCalls := [clean_message],
                            mainSend := some { toAddr := chatId, message := formatted,
                                               replyTo := mid, ok := true } }
              | Except.error _ =>
                { skip with execCalls := [clean_message],
                            mainSend := some { toAddr := chatId, message := formatted,
                                               replyTo := mid, ok := false },
                            apologySend := errorPathSend o pd }

/-! ## Job store and payment callback (`main.py` lines 56-57, 140-155, 188-224) -/

/-- One entry of the `jobs` dict. `result` and `error` are `none` exactly
when the Python value is `None` / the key is absent. -/
structure Job where
  status : String
  payment_status : String
  payment_id : String
  input_data : String
  result : Option String
  error : Option String
  identifier_from_purchaser : String
deriving Repr, DecidableEq

/-- The two module-level registries: the `jobs` dict and membership in
the `payment_instances` dict. -/
structure AppState where
  jobs : String → Option Job
  payment_instances : String → Bool

/-- The empty registries at process start. -/
def initialState : AppState :=
  { jobs := fun _ => none, payment_instances := fun _ => false }

/-- Mutate `jobs[job_id]` in place (no-op when the key is absent, which the
callers never reach silently — see `handle_payment_status`). -/
def set_job (s : AppState) (jid : String) (f : Job → Job) : AppState :=
  { s with jobs := fun j => if j = jid then (s.jobs jid).map f else s.jobs j }

/-- Lines 140-155 of `start_job` after a successful payment request:
store the job awaiting payment and register its payment monitor. -/
def start_job (jid pid input idf : String) (s : AppState) : AppState :=
  { jobs := fun j =>
      if j = jid then
        some { status := "awaiting_payment", payment_status := "pending",
               payment_id := pid, input_data := input, result := none,
               error := none, identifier_from_purchaser := idf }
      else s.jobs j,
    payment_instances := fun j => if j = jid then true else s.payment_instances j }

/-- Lines 212-215 / 221-224: `if job_id in payment_instances:
stop_status_monitoring(); del payment_instances[job_id]`.  Returns the new
state and whether the stop call was actually invoked (the monitor-release
interface is non-raising, spec sections 4.4 and 8). -/
def stop_and_remove_monitor (jid : String) (s : AppState) : AppState × Bool :=
  if s.payment_instances jid then
    ({ s with payment_instances := fun j => if j = jid then false else s.payment_instances j },
     true)
  else (s, false)

/-- Outcome of one `handle_payment_status` run: the final registries, the
sequence of statuses written to the job, how many times the monitor
release ran its stop call, and an exception escaping the callback, if
any. -/
structure CallbackResult where
  state : AppState
  statusTrace : List String
  stopCalls : Nat
  uncaught : Option String

/-- The `except` block (lines 216-224): mark the job failed, record the
error string, release the monitor.  When the job is absent even the
failure write raises, and that `KeyError` escapes. -/
def fail_job (jid e : String) (s : AppState) (trace : List String) : CallbackResult :=
  match s.jobs jid with
  | none => { state := s, statusTrace := trace, stopCalls := 0, uncaught := some "KeyError" }
  | some _ =>
    let s1 := set_job s jid fun j => { j with status := "failed", error := some e }
    let (s2, called) := stop_and_remove_monitor jid s1
    { state := s2, statusTrace := trace ++ ["failed"],
      stopCalls := if called then 1 else 0, uncaught := none }

/-- `handle_payment_status(job_id, payment_id)`.  `execResult` is the
outcome of `execute_crew_task` (the raw text of the produced result, or
the exception it raised); `completeRaises` is the exception raised by
`complete_payment`, if any. -/
def handle_payment_status (execResult : Except String String)
    (completeRaises : Option String) (jid : String) (s : AppState) : CallbackResult :=
  match s.jobs jid with
  | none =>
    -- line 194 raises KeyError; the except block's own write raises again
    { state := s, statusTrace := [], stopCalls := 0, uncaught := some "KeyError" }
  | some _ =>
    let s1 := set_job s jid fun j => { j with status := "running" }
    match execResult with
    | Except.error e => fail_job jid e s1 ["running"]
    | Except.ok res =>
      match completeRaises with
      | some e => fail_job jid e s1 ["running"]
      | none =>
        let s2 := set_job s1 jid fun j =>
          { j with status := "completed", payment_status := "completed",
                   result := some res }
        let (s3, called) := stop_and_remove_monitor jid s2
        { state := s3, statusTrace := ["running", "completed"],
          stopCalls := if called then 1 else 0, uncaught := none }

/-- The job-store invariant of spec section 3: `result` is set iff the
status is `completed`, `error` is set iff the status is `failed`. -/
def jobInv (j : Job) : Prop :=
  (j.result.isSome ↔ j.status = "completed") ∧
  (j.error.isSome ↔ j.status = "failed")

/-- Every stored job satisfies `jobInv`. -/
def storeInv (s : AppState) : Prop :=
  ∀ jid j, s.jobs jid = some j → jobInv j

/-! ## Concrete data used by witnesses and counterexamples -/

/-- An oracle in which every external call succeeds. -/
def okOracle : WahaOracle :=
  { markOk := Except.ok (), execResult := Except.ok "All good",
    sendMain := Except.ok (), sendApology := Except.ok () }

/-- An oracle in which the task executor raises. -/
def execFailOracle : WahaOracle :=
  { okOracle with execResult := Except.error "executor crashed" }

/-- 250 non-space characters. -/
def aaa250 : String := String.mk (List.replicate 250 'a')

/-- The n-th probe message ID: `n+1` copies of `a` (distinct lengths give
distinct IDs). -/
def idn (n : Nat) : String := String.mk (List.replicate (n + 1) 'a')

/-- A minimal (non-triggering) message event carrying the n-th probe ID. -/
def dedupEvent (n : Nat) : WebhookData :=
  { payload := { id := some (idn n), fromField := some "1@c.us",
                 toField := some "2@c.us", msgType := some "chat",
                 body := some "hello" },
    raw := "" }

/-- Feed a list of events through the pipeline, threading the dedup
registry. -/
def runRegistry (o : WahaOracle) (evs : List WebhookData)
    (d : Finset (Option String)) : Finset (Option String) :=
  evs.foldl (fun d ev => (process_waha_message true o ev d).dedup) d

/-- The first `n` probe events, with pairwise distinct message IDs. -/
def probeEvents (n : Nat) : List WebhookData :=
  (List.range n).map dedupEvent

/-- Event whose direct-chat `to` field is the empty string while the
serialized event mentions the group `nerds`. -/
def emptyIdEvent : WebhookData :=
  { payload := { id := some "mA", fromField := some "1@c.us",
                 toField := some "", msgType := some "chat",
                 body := some "gg nerds" },
    raw := "payload id mA from 1@c.us to  body gg nerds" }

/-- Event whose `to` field is an internal (suffix-less) identifier that the
main path remaps via the group name `nerds` found in the serialized
event. -/
def internalIdEvent : WebhookData :=
  { payload := { id := some "mB", fromField := some "1@c.us",
                 toField := some "XYZ123", msgType := some "chat",
                 body := some "gg nerds" },
    raw := "payload id mB from 1@c.us to XYZ123 body gg nerds" }

end WhatsappAgent

namespace WhatsappAgent

/-! ## Helper lemmas -/

theorem listIsPrefixOf_append_self (a b : List Char) :
    listIsPrefixOf a (a ++ b) = true := by
  induction a with
  | nil => rfl
  | cons c cs ih => simp [listIsPrefixOf, ih]

theorem pyIn_go_of_middle (m : List Char) :
    ∀ pre post : List Char, pyIn.go m (pre ++ (m ++ post)) = true := by
  intro pre
  induction pre with
  | nil =>
    intro post
    cases h : m ++ post with
    | nil =>
      have hm : m = [] := by
        cases m with
        | nil => rfl
        | cons x xs => simp at h
      simp [pyIn.go, hm, listIsPrefixOf]
    | cons c rest =>
      simp only [List.nil_append, h, pyIn.go]
      rw [← h, listIsPrefixOf_append_self]
      simp
  | cons a pre ih =>
    intro post
    simp only [List.cons_append, pyIn.go]
    rw [show pre.append (m ++ post) = pre ++ (m ++ post) from rfl, ih post]
    simp

theorem dropWhile_head_false {p : Char → Bool} :
    ∀ {l : List Char} {c : Char} {rest : List Char},
      l.dropWhile p = c :: rest → p c = false := by
  intro l
  induction l with
  | nil => intro c rest h; simp [List.dropWhile] at h
  | cons a l ih =>
    intro c rest h
    by_cases hp : p a
    · rw [List.dropWhile_cons_of_pos hp] at h
      exact ih h
    · rw [List.dropWhile_cons_of_neg hp] at h
      cases h
      exact Bool.of_not_eq_true hp

/-- `pyRsplitSpaceHead` either returns the whole (space-free) string, or
the exact prefix before the last space. -/
theorem pyRsplitSpaceHead_spec (s : String) :
    (pyRsplitSpaceHead s = s ∧ ' ' ∉ s.toList) ∨
    (∃ rest : List Char,
      s.toList = (pyRsplitSpaceHead s).toList ++ ' ' :: rest ∧ ' ' ∉ rest) := by
  unfold pyRsplitSpaceHead
  cases h : s.toList.reverse.dropWhile (fun c => !(c = ' ')) with
  | nil =>
    left
    refine ⟨rfl, ?_⟩
    intro hmem
    have hmem' : ' ' ∈ s.toList.reverse := List.mem_reverse.mpr hmem
    have hall := List.dropWhile_eq_nil_iff.mp h _ hmem'
    simp at hall
  | cons c0 pre =>
    right
    have hc : (!(c0 = ' ')) = false := dropWhile_head_false h
    have hc' : c0 = ' ' := by
      by_cases h0 : c0 = ' '
      · exact h0
      · simp [h0] at hc
    have hsplit := List.takeWhile_append_dropWhile (p := fun c => !(c = ' '))
        (l := s.toList.reverse)
    rw [h] at hsplit
    refine ⟨(s.toList.reverse.takeWhile (fun c => !(c = ' '))).reverse, ?_, ?_⟩
    · show s.toList = pre.reverse ++ ' ' ::
        (s.toList.reverse.takeWhile (fun c => !(c = ' '))).reverse
      calc s.toList = s.toList.reverse.reverse := by simp
        _ = ((s.toList.reverse.takeWhile (fun c => !(c = ' '))) ++ c0 :: pre).reverse := by
              rw [hsplit]
        _ = (c0 :: pre).reverse ++
              (s.toList.reverse.takeWhile (fun c => !(c = ' '))).reverse := by
              rw [List.reverse_append]
        _ = pre.reverse ++ ' ' ::
              (s.toList.reverse.takeWhile (fun c => !(c = ' '))).reverse := by
              rw [hc']
              simp
    · intro hmem
      have hmem' : ' ' ∈ s.toList.reverse.takeWhile (fun c => !(c = ' ')) :=
        List.mem_reverse.mp hmem
      have := List.mem_takeWhile_imp hmem'
      simp at this

theorem pyRsplitSpaceHead_length_le (s : String) :
    (pyRsplitSpaceHead s).toList.length ≤ s.toList.length := by
  rcases pyRsplitSpaceHead_spec s with ⟨h, _⟩ | ⟨rest, h, _⟩
  · rw [h]
  · rw [h]; simp

theorem toList_mk (l : List Char) : (String.mk l).toList = l := rfl

theorem toList_append (a b : String) : (a ++ b).toList = a.toList ++ b.toList := by
  cases a; cases b; rfl

theorem pyIn_empty_hay (n : String) (h : n.toList ≠ []) : pyIn n "" = false := by
  unfold pyIn pyIn.go
  cases hn : n.toList with
  | nil => exact absurd hn h
  | cons c cs => simp [listIsPrefixOf]

theorem toLower_of_pySpace {c : Char} (h : isPySpace c = true) : Char.toLower c = c := by
  simp only [isPySpace, Bool.or_eq_true, decide_eq_true_eq] at h
  rcases h with ((((h | h) | h) | h) | h) | h <;> rw [h] <;> decide

/-- A body that case-insensitively starts with `gg` does not strip to the
empty string (its first character is a `g` or `G`, not whitespace). -/
theorem pyStrip_ne_empty_of_gg {b : String}
    (h : pyStartsWith (pyLower b) "gg" = true) : pyStrip b ≠ "" := by
  intro hempty
  cases hb : b.toList with
  | nil =>
    rw [pyStartsWith, pyLower, toList_mk, hb] at h
    simp [listIsPrefixOf] at h
  | cons c1 tl =>
    have hc1 : Char.toLower c1 = 'g' := by
      have h2 : listIsPrefixOf ['g', 'g']
          (Char.toLower c1 :: tl.map Char.toLower) = true := by
        have e1 : (pyLower b).toList = Char.toLower c1 :: tl.map Char.toLower := by
          rw [pyLower, toList_mk, hb, List.map_cons]
        rw [pyStartsWith, e1] at h
        exact h
      simp only [listIsPrefixOf, Bool.and_eq_true, decide_eq_true_eq] at h2
      exact h2.1.symm
    have hns : isPySpace c1 = false := by
      by_cases hsp : isPySpace c1 = true
      · rw [toLower_of_pySpace hsp] at hc1
        rw [hc1] at hsp
        simp [isPySpace] at hsp
      · simpa using hsp
    have hlist : ((b.toList.dropWhile isPySpace).reverse.dropWhile isPySpace).reverse = [] := by
      have := congrArg String.toList hempty
      rw [pyStrip, toList_mk] at this
      exact this
    have hdrop : b.toList.dropWhile isPySpace = c1 :: tl := by
      rw [hb, List.dropWhile_cons_of_neg (by simp [hns])]
    rw [hdrop] at hlist
    have h2 : ((c1 :: tl).reverse.dropWhile isPySpace) = [] := by
      simpa using hlist
    have h3 := List.dropWhile_eq_nil_iff.mp h2 c1 (by simp)
    rw [hns] at h3
    exact Bool.false_ne_true h3

/-! ## Claim theorems -/

/-- C3: chat-ID resolution priority.  If the `from` field contains
`@g.us`, the destination is `from`; otherwise — whether or not `to`
contains `@g.us` — the destination is `to`.  The three concrete events of
the spec resolve to `555@g.us`, `555@g.us` and `2@c.us` respectively. -/
theorem chat_id_resolution_priority (f t : String) :
    (pyIn "@g.us" f = true → resolveChatId (some f) (some t) = some f) ∧
    (pyIn "@g.us" f = false → pyIn "@g.us" t = true →
      resolveChatId (some f) (some t) = some t) ∧
    (pyIn "@g.us" f = false → pyIn "@g.us" t = false →
      resolveChatId (some f) (some t) = some t) ∧
    resolveChatId (some "555@g.us") (some "1@c.us") = some "555@g.us" ∧
    resolveChatId (some "1@c.us") (some "555@g.us") = some "555@g.us" ∧
    resolveChatId (some "1@c.us") (some "2@c.us") = some "2@c.us" := by
  refine ⟨?_, ?_, ?_, by decide, by decide, by decide⟩
  · intro h
    have hf : ¬(f = "") := by
      intro h0
      rw [h0] at h
      rw [pyIn_empty_hay "@g.us" (by decide)] at h
      exact Bool.false_ne_true h
    simp [resolveChatId, pyTruthy, hf, h]
  · intro h1 h2
    have ht : ¬(t = "") := by
      intro h0
      rw [h0] at h2
      rw [pyIn_empty_hay "@g.us" (by decide)] at h2
      exact Bool.false_ne_true h2
    simp [resolveChatId, pyTruthy, ht, h1, h2]
  · intro h1 h2
    simp [resolveChatId, pyTruthy, h1, h2]

/-- Witness for C3 at the spec's first concrete event. -/
theorem chat_id_resolution_priority_witness :
    pyIn "@g.us" "555@g.us" = true ∧
    resolveChatId (some "555@g.us") (some "1@c.us") = some "555@g.us" :=
  ⟨by decide, (chat_id_resolution_priority "555@g.us" "1@c.us").1 (by decide)⟩

/-- C6: response shaping.  Over-budget executor output is truncated to a
kept prefix of at most 200 characters — the whole 200-character cut when
it holds no space, otherwise exactly the part before its last space — with
`"..."` appended; an input of 250 non-space characters keeps exactly the
200-character cut plus the ellipsis; input within the budget passes the
truncation unchanged; and every shaped response strips the leading
emoji/whitespace run and wraps the text in the robot marker and italics
underscores. -/
theorem response_shaping_spec (s : String) :
    (max_response_length < pyLen s →
      ∃ kept : String,
        truncateResponse s = kept ++ "..." ∧
        pyLen kept ≤ max_response_length ∧
        ((kept = pyTake s max_response_length ∧
            ' ' ∉ (pyTake s max_response_length).toList) ∨
         (∃ rest : List Char,
            (pyTake s max_response_length).toList = kept.toList ++ ' ' :: rest ∧
            ' ' ∉ rest))) ∧
    (pyLen s = 250 → (∀ c ∈ s.toList, c ≠ ' ') →
      truncateResponse s = pyTake s max_response_length ++ "..." ∧
      pyLen (pyTake s max_response_length) = 200) ∧
    (pyLen s ≤ max_response_length → truncateResponse s = s) ∧
    pyStartsWith (shapeResponse s) "🤖 _" = true ∧
    pyEndsWith (shapeResponse s) "_" = true ∧
    (∀ c, (dropLeadingEmoji (pyStrip (truncateResponse s))).toList.head? = some c →
      isLeadingStripChar c = false) ∧
    shapeResponse s = "🤖 _" ++ dropLeadingEmoji (pyStrip (truncateResponse s)) ++ "_" := by
  have htake_le : (pyTake s max_response_length).toList.length ≤ max_response_length := by
    simp [pyTake, toList_mk, List.length_take]
  refine ⟨?_, ?_, ?_, ?_, ?_, ?_, rfl⟩
  · intro h
    refine ⟨pyRsplitSpaceHead (pyTake s max_response_length), ?_, ?_, ?_⟩
    · unfold truncateResponse
      rw [if_pos h]
    · unfold pyLen
      exact le_trans (pyRsplitSpaceHead_length_le _) htake_le
    · rcases pyRsplitSpaceHead_spec (pyTake s max_response_length) with ⟨heq, hns⟩ | hsplit
      · exact Or.inl ⟨heq, hns⟩
      · exact Or.inr hsplit
  · intro h250 hns
    have hgt : max_response_length < pyLen s := by
      rw [h250]; decide
    have hnospace : ' ' ∉ (pyTake s max_response_length).toList := by
      intro hmem
      have hsub : (pyTake s max_response_length).toList ⊆ s.toList := by
        simp only [pyTake, toList_mk]
        exact List.take_subset _ _
      exact hns ' ' (hsub hmem) rfl
    have hkept : pyRsplitSpaceHead (pyTake s max_response_length) =
        pyTake s max_response_length := by
      rcases pyRsplitSpaceHead_spec (pyTake s max_response_length) with ⟨heq, _⟩ | ⟨rest, heq, _⟩
      · exact heq
      · exfalso
        apply hnospace
        rw [heq]
        simp
    constructor
    · unfold truncateResponse
      rw [if_pos hgt, hkept]
    · unfold pyLen at h250
      show (List.take max_response_length s.toList).length = 200
      rw [List.length_take, h250]
      decide
  · intro h
    unfold truncateResponse
    rw [if_neg (by omega)]
  · unfold pyStartsWith shapeResponse
    rw [toList_append, toList_append, List.append_assoc]
    exact listIsPrefixOf_append_self _ _
  · unfold pyEndsWith shapeResponse
    rw [toList_append, List.reverse_append]
    simp [listIsPrefixOf]
  · intro c hc
    simp only [dropLeadingEmoji, toList_mk] at hc
    cases hd : (pyStrip (truncateResponse s)).toList.dropWhile isLeadingStripChar with
    | nil => rw [hd] at hc; simp at hc
    | cons a rest =>
      rw [hd] at hc
      simp at hc
      rw [← hc]
      exact dropWhile_head_false hd

theorem stop_and_remove_jobs (jid : String) (s : AppState) :
    ((stop_and_remove_monitor jid s).1).jobs = s.jobs := by
  unfold stop_and_remove_monitor
  split <;> rfl

/-- C1: job lifecycle.  Creating a job stores it as `awaiting_payment`
with `payment_status` pending and no result; the payment-completion
callback writes `running` first and, on executor and finalization
success, ends the job `completed` with the result recorded; an exception
from the executor, or from payment finalization, ends the job `failed`
with the error recorded. -/
theorem job_lifecycle (s : AppState) (jid pid input idf res e : String) :
    (start_job jid pid input idf s).jobs jid =
      some { status := "awaiting_payment", payment_status := "pending",
             payment_id := pid, input_data := input, result := none,
             error := none, identifier_from_purchaser := idf } ∧
    (handle_payment_status (Except.ok res) none jid
        (start_job jid pid input idf s)).statusTrace = ["running", "completed"] ∧
    (handle_payment_status (Except.ok res) none jid
        (start_job jid pid input idf s)).state.jobs jid =
      some { status := "completed", payment_status := "completed",
             payment_id := pid, input_data := input, result := some res,
             error := none, identifier_from_purchaser := idf } ∧
    (handle_payment_status (Except.error e) none jid
        (start_job jid pid input idf s)).statusTrace = ["running", "failed"] ∧
    (handle_payment_status (Except.error e) none jid
        (start_job jid pid input idf s)).state.jobs jid =
      some { status := "failed", payment_status := "pending",
             payment_id := pid, input_data := input, result := none,
             error := some e, identifier_from_purchaser := idf } ∧
    (handle_payment_status (Except.ok res) (some e) jid
        (start_job jid pid input idf s)).statusTrace = ["running", "failed"] ∧
    (handle_payment_status (Except.ok res) (some e) jid
        (start_job jid pid input idf s)).state.jobs jid =
      some { status := "failed", payment_status := "pending",
             payment_id := pid, input_data := input, result := none,
             error := some e, identifier_from_purchaser := idf } := by
  refine ⟨?_, ?_, ?_, ?_, ?_, ?_, ?_⟩ <;>
    simp [start_job, handle_payment_status, fail_job, set_job,
          stop_and_remove_monitor]

/-- C4: job-store invariant.  Every job of the initial store, of the
store after job creation, and of the store after the payment callback —
under every combination of executor and finalization outcomes — has
`result` set iff its status is `completed` and `error` set iff its status
is `failed`. -/
theorem job_store_invariant (s : AppState) (jid pid input idf : String)
    (hinv : storeInv s) :
    storeInv initialState ∧
    storeInv (start_job jid pid input idf s) ∧
    (∀ (execResult : Except String String) (completeRaises : Option String),
      storeInv (handle_payment_status execResult completeRaises jid
        (start_job jid pid input idf s)).state) := by
  have hstart : storeInv (start_job jid pid input idf s) := by
    intro a b h
    by_cases ha : a = jid
    · rw [ha] at h
      rw [show (start_job jid pid input idf s).jobs jid =
          some { status := "awaiting_payment", payment_status := "pending",
                 payment_id := pid, input_data := input, result := none,
                 error := none, identifier_from_purchaser := idf } from by
            simp [start_job], Option.some.injEq] at h
      rw [← h]
      simp [jobInv]
    · rw [show (start_job jid pid input idf s).jobs a = s.jobs a from by
        simp [start_job, ha]] at h
      exact hinv a b h
  refine ⟨?_, hstart, ?_⟩
  · intro a b h
    simp [initialState] at h
  · intro er cr a b h
    by_cases ha : a = jid
    · rw [ha] at h
      cases er with
      | error e =>
        rw [show (handle_payment_status (Except.error e) cr jid
              (start_job jid pid input idf s)).state.jobs jid =
            some { status := "failed", payment_status := "pending",
                   payment_id := pid, input_data := input, result := none,
                   error := some e, identifier_from_purchaser := idf } from by
          simp [handle_payment_status, start_job, fail_job, set_job,
                stop_and_remove_monitor], Option.some.injEq] at h
        rw [← h]
        simp [jobInv]
      | ok res =>
        cases cr with
        | some e =>
          rw [show (handle_payment_status (Except.ok res) (some e) jid
                (start_job jid pid input idf s)).state.jobs jid =
              some { status := "failed", payment_status := "pending",
                     payment_id := pid, input_data := input, result := none,
                     error := some e, identifier_from_purchaser := idf } from by
            simp [handle_payment_status, start_job, fail_job, set_job,
                  stop_and_remove_monitor], Option.some.injEq] at h
          rw [← h]
          simp [jobInv]
        | none =>
          rw [show (handle_payment_status (Except.ok res) none jid
                (start_job jid pid input idf s)).state.jobs jid =
              some { status := "completed", payment_status := "completed",
                     payment_id := pid, input_data := input, result := some res,
                     error := none, identifier_from_purchaser := idf } from by
            simp [handle_payment_status, start_job, fail_job, set_job,
                  stop_and_remove_monitor], Option.some.injEq] at h
          rw [← h]
          simp [jobInv]
    · have hj : (handle_payment_status er cr jid
          (start_job jid pid input idf s)).state.jobs a = s.jobs a := by
        cases er with
        | error e =>
          simp [handle_payment_status, start_job, fail_job, set_job,
                stop_and_remove_monitor, ha]
        | ok res =>
          cases cr with
          | some e =>
            simp [handle_payment_status, start_job, fail_job, set_job,
                  stop_and_remove_monitor, ha]
          | none =>
            simp [handle_payment_status, start_job, fail_job, set_job,
                  stop_and_remove_monitor, ha]
      rw [hj] at h
      exact hinv a b h

/-- Witness for C4: the invariant after a concrete successful run. -/
theorem job_store_invariant_witness :
    storeInv (handle_payment_status (Except.ok "res") none "j1"
      (start_job "j1" "p1" "write" "purch" initialState)).state :=
  (job_store_invariant initialState "j1" "p1" "write" "purch"
    (by intro a b hb; simp [initialState] at hb)).2.2 (Except.ok "res") none

/-- C8: the monitor release runs its stop call exactly once on the first
terminal transition — whether the callback ends `completed` or `failed` —
and removes the payment instance from the registry; running the release
step again for a job no longer in the registry performs no stop call,
raises nothing, and leaves the registries unchanged. -/
theorem monitor_release_once (s : AppState) (jid pid input idf : String) :
    (∀ (execResult : Except String String) (completeRaises : Option String),
      (handle_payment_status execResult completeRaises jid
        (start_job jid pid input idf s)).stopCalls = 1 ∧
      (handle_payment_status execResult completeRaises jid
        (start_job jid pid input idf s)).state.payment_instances jid = false ∧
      (handle_payment_status execResult completeRaises jid
        (start_job jid pid input idf s)).uncaught = none) ∧
    (∀ t : AppState, t.payment_instances jid = false →
      stop_and_remove_monitor jid t = (t, false)) := by
  constructor
  · intro er cr
    cases er with
    | error e =>
      refine ⟨?_, ?_, ?_⟩ <;>
        simp [handle_payment_status, start_job, fail_job, set_job,
              stop_and_remove_monitor]
    | ok res =>
      cases cr with
      | some e =>
        refine ⟨?_, ?_, ?_⟩ <;>
          simp [handle_payment_status, start_job, fail_job, set_job,
                stop_and_remove_monitor]
      | none =>
        refine ⟨?_, ?_, ?_⟩ <;>
          simp [handle_payment_status, start_job, fail_job, set_job,
                stop_and_remove_monitor]
  · intro t ht
    unfold stop_and_remove_monitor
    rw [ht]
    simp

/-- Witness for C8: releasing the monitor a second time after a concrete
completed run is a no-op. -/
theorem monitor_release_once_witness :
    stop_and_remove_monitor "j1"
      (handle_payment_status (Except.ok "res") none "j1"
        (start_job "j1" "p1" "write" "purch" initialState)).state =
    ((handle_payment_status (Except.ok "res") none "j1"
        (start_job "j1" "p1" "write" "purch" initialState)).state, false) :=
  (monitor_release_once initialState "j1" "p1" "write" "purch").2 _ rfl

/-- A duplicate message ID short-circuits the whole pipeline. -/
theorem processed_dedup_skip (ev : WebhookData) (o : WahaOracle)
    (d : Finset (Option String)) (h : ev.payload.id ∈ d) :
    process_waha_message true o ev d = skippedRun d := by
  simp only [process_waha_message, skippedRun]
  repeat' split
  all_goals simp_all

/-- A fresh message ID is recorded; the registry is cleared when its size
then exceeds 1000. -/
theorem processed_dedup_record (ev : WebhookData) (o : WahaOracle)
    (d : Finset (Option String)) (h : ev.payload.id ∉ d) :
    (process_waha_message true o ev d).dedup =
      if 1000 < (insert ev.payload.id d).card then ∅ else insert ev.payload.id d := by
  simp only [process_waha_message, skippedRun]
  repeat' split
  all_goals simp_all

theorem idn_injective : Function.Injective idn := by
  intro m n h
  have h2 := congrArg (fun s => s.toList.length) h
  simp only [idn, toList_mk, List.length_replicate] at h2
  omega

theorem someIdn_injective : Function.Injective (fun i => some (idn i)) :=
  fun _ _ h => idn_injective (Option.some_injective _ h)

theorem idn_fresh (k : Nat) :
    some (idn k) ∉ (Finset.range k).image (fun i => some (idn i)) := by
  simp only [Finset.mem_image, Finset.mem_range]
  rintro ⟨i, hi, hee⟩
  have : i = k := idn_injective (Option.some_injective _ hee)
  omega

theorem runRegistry_snoc (o : WahaOracle) (l : List WebhookData) (e : WebhookData)
    (d : Finset (Option String)) :
    runRegistry o (l ++ [e]) d =
      (process_waha_message true o e (runRegistry o l d)).dedup := by
  unfold runRegistry
  rw [List.foldl_append]
  rfl

/-- Running the first `n ≤ 1000` probe events from an empty registry
accumulates exactly their `n` IDs. -/
theorem registry_probe (o : WahaOracle) :
    ∀ n, n ≤ 1000 →
      runRegistry o (probeEvents n) ∅ = (Finset.range n).image (fun i => some (idn i)) := by
  intro n
  induction n with
  | zero => intro _; simp [probeEvents, runRegistry]
  | succ k ih =>
    intro hle
    have hk := ih (by omega)
    have hsteps : probeEvents (k + 1) = probeEvents k ++ [dedupEvent k] := by
      simp [probeEvents, List.range_succ]
    rw [hsteps, runRegistry_snoc, hk]
    have hid : (dedupEvent k).payload.id = some (idn k) := rfl
    rw [processed_dedup_record _ _ _ (by rw [hid]; exact idn_fresh k), hid]
    have hcard : ((Finset.range k).image (fun i => some (idn i))).card = k := by
      rw [Finset.card_image_of_injective _ someIdn_injective, Finset.card_range]
    rw [if_neg (by
      rw [Finset.card_insert_of_not_mem (idn_fresh k), hcard]
      omega)]
    rw [Finset.range_succ, Finset.image_insert]

/-- Running 1001 distinct probe events from an empty registry leaves it
empty: the 1001st insertion pushes the size past the cap and the whole
set is cleared. -/
theorem registry_1001 (o : WahaOracle) :
    runRegistry o (probeEvents 1001) ∅ = ∅ := by
  have hsteps : probeEvents 1001 = probeEvents 1000 ++ [dedupEvent 1000] := by
    show (List.range (1000 + 1)).map dedupEvent =
      (List.range 1000).map dedupEvent ++ [dedupEvent 1000]
    rw [List.range_succ, List.map_append, List.map_singleton]
  rw [hsteps, runRegistry_snoc, registry_probe o 1000 (by omega)]
  have hid : (dedupEvent 1000).payload.id = some (idn 1000) := rfl
  rw [processed_dedup_record _ _ _ (by rw [hid]; exact idn_fresh 1000), hid]
  have hcard : ((Finset.range 1000).image (fun i => some (idn i))).card = 1000 := by
    rw [Finset.card_image_of_injective _ someIdn_injective, Finset.card_range]
  rw [if_pos (by
    rw [Finset.card_insert_of_not_mem (idn_fresh 1000), hcard]
    omega)]

/-- C2 (amended): an already-seen message ID skips processing entirely; a
fresh ID is recorded, and the registry is cleared wholesale when its size
exceeds 1000 — so the first 1000 distinct IDs accumulate, while processing
the 1001st distinct ID empties the registry (the 1001st ID is not
retained; it is the 1002nd distinct ID that lands in an empty set). -/
theorem dedup_registry_amended (ev : WebhookData) (o : WahaOracle)
    (d : Finset (Option String)) :
    (ev.payload.id ∈ d → process_waha_message true o ev d = skippedRun d) ∧
    (ev.payload.id ∉ d → (process_waha_message true o ev d).dedup =
      if 1000 < (insert ev.payload.id d).card then ∅ else insert ev.payload.id d) ∧
    (∀ n, n ≤ 1000 →
      runRegistry o (probeEvents n) ∅ = (Finset.range n).image (fun i => some (idn i))) ∧
    runRegistry o (probeEvents 1001) ∅ = ∅ :=
  ⟨processed_dedup_skip ev o d, processed_dedup_record ev o d,
   registry_probe o, registry_1001 o⟩

/-- Witness for C2 (amended): a concrete duplicate is skipped and a
concrete fresh ID is recorded. -/
theorem dedup_registry_amended_witness :
    process_waha_message true okOracle (dedupEvent 0) {some (idn 0)} =
      skippedRun {some (idn 0)} ∧
    (process_waha_message true okOracle (dedupEvent 0) ∅).dedup = {some (idn 0)} := by
  constructor
  · exact (dedup_registry_amended (dedupEvent 0) okOracle {some (idn 0)}).1
      (by simp [dedupEvent])
  · have h := (dedup_registry_amended (dedupEvent 0) okOracle ∅).2.1
      (by simp [dedupEvent])
    rw [h]
    simp [dedupEvent]

/-- C2 counterexample: after processing 1001 events with distinct message
IDs starting from an empty registry, the registry is empty — it does not
contain the 1001st ID, contrary to the claim that the 1001st distinct ID
is recorded into (and hence found in) the reset registry. -/
theorem dedup_registry_counterexample :
    runRegistry okOracle (probeEvents 1001) ∅ = ∅ ∧
    some (idn 1000) ∉ runRegistry okOracle (probeEvents 1001) ∅ := by
  have h := registry_1001 okOracle
  exact ⟨h, by rw [h]; simp⟩

theorem listIsPrefixOf_iff (a : List Char) :
    ∀ b, listIsPrefixOf a b = true ↔ ∃ t, b = a ++ t := by
  induction a with
  | nil =>
    intro b
    simp [listIsPrefixOf]
  | cons x xs ih =>
    intro b
    cases b with
    | nil => simp [listIsPrefixOf]
    | cons y ys =>
      simp only [listIsPrefixOf, Bool.and_eq_true, decide_eq_true_eq, ih,
        List.cons_append, List.cons.injEq]
      constructor
      · rintro ⟨rfl, t, rfl⟩
        exact ⟨t, rfl, rfl⟩
      · rintro ⟨t, rfl, rfl⟩
        exact ⟨rfl, t, rfl⟩

/-- Any successful scan of the `\d+@g\.us` pattern returns a substring of
the input of the shape digit-run + `@g.us`. -/
theorem findGroupIdChars_spec :
    ∀ cs m, findGroupIdChars cs = some m →
      (∃ pre post, cs = pre ++ (m ++ post)) ∧
      (∃ dgs, m = dgs ++ "@g.us".toList ∧ dgs ≠ [] ∧ ∀ x ∈ dgs, x.isDigit = true) := by
  intro cs
  induction cs with
  | nil => intro m h; simp [findGroupIdChars] at h
  | cons c rest ih =>
    intro m h
    rw [findGroupIdChars] at h
    cases hg : groupIdAt (c :: rest) with
    | some m0 =>
      rw [hg] at h
      rw [show m0 = m from by injection h] at hg
      clear h
      simp only [groupIdAt] at hg
      split at hg
      · exact absurd hg (by simp)
      · split at hg
        next hd hp =>
          have hm0 : m = (c :: rest).takeWhile Char.isDigit ++ "@g.us".toList := by
            injection hg with h2
            exact h2.symm
          obtain ⟨t1, ht1⟩ := List.takeWhile_prefix (l := c :: rest) (p := Char.isDigit)
          have hdrop : (c :: rest).drop ((c :: rest).takeWhile Char.isDigit).length = t1 := by
            nth_rewrite 2 [← ht1]
            exact List.drop_left _ _
          rw [hdrop] at hp
          obtain ⟨post, hpost⟩ := (listIsPrefixOf_iff _ _).mp hp
          constructor
          · refine ⟨[], post, ?_⟩
            rw [List.nil_append, hm0, List.append_assoc, ← hpost, ht1]
          · refine ⟨(c :: rest).takeWhile Char.isDigit, hm0, ?_, ?_⟩
            · intro hnil
              rw [hnil] at hd
              exact hd rfl
            · intro x hx
              exact List.mem_takeWhile_imp hx
        next _ _ => exact absurd hg (by simp)
    | none =>
      rw [hg] at h
      obtain ⟨⟨pre, post, hsplit⟩, hshape⟩ := ih m h
      exact ⟨⟨c :: pre, post, by rw [hsplit]; rfl⟩, hshape⟩

/-- C7 (amended): a *non-empty* resolved identifier lacking both domain
suffixes is remapped: first to the mapped ID of the first known group
whose name occurs case-insensitively in the serialized event, else to the
first substring of the serialized event matching the `\d+@g\.us` pattern
(which is indeed a substring ending in `@g.us`), else it is returned
unchanged — and the mapper never raises, being a total function.  An
*empty* resolved identifier, however, is returned as is without any
remapping attempt (the pipeline's guard requires a truthy identifier). -/
theorem internal_id_remapping_amended (c raw : String) :
    (¬(c = "") → pyEndsWith c "@c.us" = false → pyEndsWith c "@g.us" = false →
      remapChatId (some c) raw = some (map_waha_internal_id_to_group_id c raw)) ∧
    (∀ p, known_groups.find? (fun q => pyIn (pyLower q.1) (pyLower raw)) = some p →
      map_waha_internal_id_to_group_id c raw = p.2) ∧
    (known_groups.find? (fun q => pyIn (pyLower q.1) (pyLower raw)) = none →
      ∀ g, findGroupIdPattern raw = some g →
        map_waha_internal_id_to_group_id c raw = g ∧
        pyIn g raw = true ∧ pyEndsWith g "@g.us" = true) ∧
    (known_groups.find? (fun q => pyIn (pyLower q.1) (pyLower raw)) = none →
      findGroupIdPattern raw = none →
      map_waha_internal_id_to_group_id c raw = c) ∧
    remapChatId (some "") raw = some "" := by
  refine ⟨?_, ?_, ?_, ?_, by simp [remapChatId]⟩
  · intro h1 h2 h3
    simp [remapChatId, h1, h2, h3]
  · intro p hp
    simp [map_waha_internal_id_to_group_id, hp]
  · intro hfind g hg
    refine ⟨by simp [map_waha_internal_id_to_group_id, hfind, hg], ?_, ?_⟩
    · obtain ⟨m, hm, hmk⟩ : ∃ m, findGroupIdChars raw.toList = some m ∧ String.mk m = g := by
        unfold findGroupIdPattern at hg
        cases hmc : findGroupIdChars raw.toList with
        | none => rw [hmc] at hg; cases hg
        | some m => rw [hmc] at hg; cases hg; exact ⟨m, rfl, rfl⟩
      obtain ⟨⟨pre, post, hsplit⟩, _⟩ := findGroupIdChars_spec _ _ hm
      rw [← hmk]
      show pyIn.go m raw.toList = true
      rw [hsplit]
      exact pyIn_go_of_middle m pre post
    · obtain ⟨m, hm, hmk⟩ : ∃ m, findGroupIdChars raw.toList = some m ∧ String.mk m = g := by
        unfold findGroupIdPattern at hg
        cases hmc : findGroupIdChars raw.toList with
        | none => rw [hmc] at hg; cases hg
        | some m => rw [hmc] at hg; cases hg; exact ⟨m, rfl, rfl⟩
      obtain ⟨_, dgs, hshape, _, _⟩ := findGroupIdChars_spec _ _ hm
      rw [← hmk]
      show listIsPrefixOf "@g.us".toList.reverse m.reverse = true
      rw [hshape, List.reverse_append]
      exact listIsPrefixOf_append_self _ _
  · intro hfind hpat
    simp [map_waha_internal_id_to_group_id, hfind, hpat]

/-- Witness for C7 (amended): a concrete internal ID is remapped through
the group-name match. -/
theorem internal_id_remapping_amended_witness :
    remapChatId (some "XYZ123") "x nerds x" =
      some (map_waha_internal_id_to_group_id "XYZ123" "x nerds x") ∧
    map_waha_internal_id_to_group_id "XYZ123" "x nerds x" =
      "120363422170611614@g.us" := by
  have h := internal_id_remapping_amended "XYZ123" "x nerds x"
  exact ⟨h.1 (by decide) (by decide) (by decide),
         h.2.1 ("nerds", "120363422170611614@g.us") (by decide)⟩

/-- C7 counterexample: for the event whose `to` field is the empty string
and whose serialization mentions the group `nerds`, the resolved
identifier `""` ends with neither domain suffix and the mapper would
return the `nerds` group ID, yet the pipeline leaves the destination
`""` — the remapping stage is skipped for a falsy identifier, contrary to
the claim. -/
theorem internal_id_remapping_counterexample :
    (process_waha_message true okOracle emptyIdEvent ∅).finalChatId = some "" ∧
    pyEndsWith "" "@c.us" = false ∧
    pyEndsWith "" "@g.us" = false ∧
    map_waha_internal_id_to_group_id "" emptyIdEvent.raw = "120363422170611614@g.us" ∧
    (process_waha_message true okOracle emptyIdEvent ∅).finalChatId ≠
      some (map_waha_internal_id_to_group_id "" emptyIdEvent.raw) := by
  refine ⟨rfl, by decide, by decide, by decide, ?_⟩
  intro h
  rw [show map_waha_internal_id_to_group_id "" emptyIdEvent.raw =
    "120363422170611614@g.us" from by decide] at h
  rw [show (process_waha_message true okOracle emptyIdEvent ∅).finalChatId =
    some "" from rfl] at h
  simp at h

/-- C5: trigger gating.  A message whose body does not case-insensitively
start with `gg` causes no task execution and no outbound send, whatever
the other fields, registry and oracle outcomes are; when the body does
start with `gg`, the keyword is stripped, the trimmed remainder is the
instruction passed to the executor, and an empty remainder likewise causes
no execution and no send. -/
theorem trigger_gating (ev : WebhookData) (o : WahaOracle)
    (d : Finset (Option String)) (ci : Bool) :
    (pyStartsWith (pyLower (ev.payload.body.getD "")) "gg" = false →
      (process_waha_message ci o ev d).execCalls = [] ∧
      (process_waha_message ci o ev d).mainSend = none ∧
      (process_waha_message ci o ev d).apologySend = none) ∧
    (ev.payload.id ∉ d →
      (ev.payload.msgType.getD "chat" = "text" ∨ ev.payload.msgType.getD "chat" = "chat") →
      pyStartsWith (pyLower (ev.payload.body.getD "")) "gg" = true →
      ((pyStrip (pyDrop (ev.payload.body.getD "") 2) = "" →
        (process_waha_message true o ev d).execCalls = [] ∧
        (process_waha_message true o ev d).mainSend = none ∧
        (process_waha_message true o ev d).apologySend = none) ∧
       (pyStrip (pyDrop (ev.payload.body.getD "") 2) ≠ "" →
        (process_waha_message true o ev d).execCalls =
          [pyStrip (pyDrop (ev.payload.body.getD "") 2)]))) := by
  constructor
  · intro h
    simp only [process_waha_message, skippedRun]
    repeat' split
    all_goals simp_all
  · intro hdup hType htrig
    have hbody : ¬(pyStrip (ev.payload.body.getD "") = "") :=
      pyStrip_ne_empty_of_gg htrig
    constructor
    · intro hclean
      simp only [process_waha_message, skippedRun]
      repeat' split
      all_goals simp_all
    · intro hclean
      simp only [process_waha_message, skippedRun]
      repeat' split
      all_goals simp_all

/-- Witness for C5: the body `"gg hello"` passes the instruction `"hello"`
to the executor, and the body `"hello"` triggers nothing. -/
theorem trigger_gating_witness :
    (process_waha_message true okOracle
      { payload := { id := some "w5", fromField := some "555@g.us",
                     toField := some "1@c.us", msgType := some "chat",
                     body := some "gg hello" }, raw := "r" } ∅).execCalls = ["hello"] ∧
    (process_waha_message true okOracle
      { payload := { id := some "w5b", fromField := some "555@g.us",
                     toField := some "1@c.us", msgType := some "chat",
                     body := some "hello" }, raw := "r" } ∅).execCalls = [] := by
  constructor
  · have := (trigger_gating
      { payload := { id := some "w5", fromField := some "555@g.us",
                     toField := some "1@c.us", msgType := some "chat",
                     body := some "gg hello" }, raw := "r" } okOracle ∅ true).2
      (by simp) (by right; rfl) (by decide)
    have h2 := this.2 (by decide)
    rw [h2]
    decide
  · exact ((trigger_gating
      { payload := { id := some "w5b", fromField := some "555@g.us",
                     toField := some "1@c.us", msgType := some "chat",
                     body := some "hello" }, raw := "r" } okOracle ∅ true).1
      (by decide)).1

/-- C9 (amended): an exception in the executed/responded stages is caught
and answered with a best-effort apology reply-in-thread — but the apology
destination is re-derived from the event's `from`/`to` fields by the
structural rules only, *without* the internal-ID remapping stage, so it
can differ from the destination the main path resolved; the apology is
attempted whenever that re-derived identifier is truthy, a failure of the
apology send itself is swallowed (the attempt is recorded with `ok :=
false` and the handler still returns normally), and no apology is sent
when the main send succeeds. -/
theorem webhook_failure_recovery_amended (ev : WebhookData) (o : WahaOracle)
    (d : Finset (Option String)) (e : String)
    (hdup : ev.payload.id ∉ d)
    (hType : ev.payload.msgType.getD "chat" = "text" ∨
      ev.payload.msgType.getD "chat" = "chat")
    (htrig : pyStartsWith (pyLower (ev.payload.body.getD "")) "gg" = true)
    (hclean : ¬(pyStrip (pyDrop (ev.payload.body.getD "") 2) = "")) :
    (o.execResult = Except.error e →
      (process_waha_message true o ev d).mainSend = none ∧
      (process_waha_message true o ev d).apologySend = errorPathSend o ev.payload) ∧
    (∀ r, o.execResult = Except.ok r → o.sendMain = Except.error e →
      (process_waha_message true o ev d).mainSend =
        some { toAddr := remapChatId (resolveChatId ev.payload.fromField
                  ev.payload.toField) ev.raw,
               message := shapeResponse r, replyTo := ev.payload.id, ok := false } ∧
      (process_waha_message true o ev d).apologySend = errorPathSend o ev.payload) ∧
    (∀ r, o.execResult = Except.ok r → o.sendMain = Except.ok () →
      (process_waha_message true o ev d).apologySend = none) ∧
    (∀ c, resolveChatId ev.payload.fromField ev.payload.toField = some c →
      ¬(c = "") →
      errorPathSend o ev.payload =
        some { toAddr := some c, message := apologyText, replyTo := ev.payload.id,
               ok := exceptOk o.sendApology }) ∧
    (resolveChatId ev.payload.fromField ev.payload.toField = some "" →
      errorPathSend o ev.payload = none) ∧
    (resolveChatId ev.payload.fromField ev.payload.toField = none →
      errorPathSend o ev.payload = none) := by
  have hbody : ¬(pyStrip (ev.payload.body.getD "") = "") :=
    pyStrip_ne_empty_of_gg htrig
  refine ⟨?_, ?_, ?_, ?_, ?_, ?_⟩
  · intro hexec
    simp only [process_waha_message, skippedRun]
    repeat' split
    all_goals simp_all
  · intro r hexec hsend
    simp only [process_waha_message, skippedRun]
    repeat' split
    all_goals simp_all
  · intro r hexec hsend
    simp only [process_waha_message, skippedRun]
    repeat' split
    all_goals simp_all
  · intro c hres hc
    simp [errorPathSend, hres, hc]
  · intro hres
    simp [errorPathSend, hres]
  · intro hres
    simp [errorPathSend, hres]

/-- Witness for C9 (amended): concrete executor failure produces the
apology attempt at the structurally re-derived destination. -/
theorem webhook_failure_recovery_amended_witness :
    (process_waha_message true execFailOracle internalIdEvent ∅).mainSend = none ∧
    (process_waha_message true execFailOracle internalIdEvent ∅).apologySend =
      errorPathSend execFailOracle internalIdEvent.payload := by
  exact (webhook_failure_recovery_amended internalIdEvent execFailOracle ∅
    "executor crashed" (by simp [internalIdEvent]) (by right; rfl) (by decide)
    (by decide)).1 rfl

/-- C9 counterexample: for the event whose internal `to` identifier the
main path remaps (via the group name `nerds`) to a real group ID, an
executor failure makes the error path send the apology to the *unmapped*
identifier `XYZ123`, not to the destination the main path resolved —
contrary to the claim that the apology goes to the already-resolved
destination including the remapping stage. -/
theorem webhook_failure_recovery_counterexample :
    (process_waha_message true execFailOracle internalIdEvent ∅).finalChatId =
      some "120363422170611614@g.us" ∧
    (process_waha_message true execFailOracle internalIdEvent ∅).apologySend =
      some { toAddr := some "XYZ123", message := apologyText,
             replyTo := some "mB", ok := true } ∧
    some "XYZ123" ≠
      (process_waha_message true execFailOracle internalIdEvent ∅).finalChatId := by
  refine ⟨rfl, rfl, ?_⟩
  rw [show (process_waha_message true execFailOracle internalIdEvent ∅).finalChatId =
    some "120363422170611614@g.us" from rfl]
  simp

/-- C10: the pipeline's mark-as-read attempt always raises — the call
site passes two positional arguments to a method declaring one — the
`TypeError` is caught and logged, and processing continues unaffected:
the pipeline's outcome does not depend on what the mark-as-read HTTP call
would have returned, so no read receipt is ever delivered yet the main
flow never aborts. -/
theorem mark_as_read_arity_bug (ev : WebhookData) (o : WahaOracle)
    (d : Finset (Option String)) (hdup : ev.payload.id ∉ d) :
    mark_as_read_argCount ≠ mark_as_read_paramCount ∧
    (∀ body, markAsReadCall body = Except.error "TypeError") ∧
    (process_waha_message true o ev d).markAttempted = true ∧
    (process_waha_message true o ev d).markError = some "TypeError" ∧
    (∀ m₁ m₂ : Except String Unit,
      process_waha_message true { o with markOk := m₁ } ev d =
      process_waha_message true { o with markOk := m₂ } ev d) := by
  refine ⟨by decide, fun _ => rfl, ?_, ?_, ?_⟩
  · simp only [process_waha_message, skippedRun]
    repeat' split
    all_goals simp_all
  · simp only [process_waha_message, skippedRun]
    repeat' split
    all_goals simp_all [markAsReadCall, pyCallWithArity, mark_as_read_paramCount,
      mark_as_read_argCount]
  · intro m₁ m₂
    simp [process_waha_message, markAsReadCall, pyCallWithArity,
      mark_as_read_paramCount, mark_as_read_argCount, errorPathSend]

/-- Witness for C10: the arity-mismatched call fails with `TypeError` on a
concrete event, yet the executor still runs. -/
theorem mark_as_read_arity_bug_witness :
    markAsReadCall (Except.ok ()) = Except.error "TypeError" ∧
    (process_waha_message true okOracle (dedupEvent 0) ∅).markError =
      some "TypeError" ∧
    (process_waha_message true okOracle
      { payload := { id := some "w10", fromField := some "555@g.us",
                     toField := some "1@c.us", msgType := some "chat",
                     body := some "gg ping" }, raw := "r" } ∅).execCalls = ["ping"] := by
  refine ⟨?_, ?_, ?_⟩
  · exact (mark_as_read_arity_bug (dedupEvent 0) okOracle ∅
      (by simp [dedupEvent])).2.1 (Except.ok ())
  · exact (mark_as_read_arity_bug (dedupEvent 0) okOracle ∅
      (by simp [dedupEvent])).2.2.2.1
  · rfl

/-- Witness for C6: 250 copies of a non-space character are truncated to
the 200-character cut plus the ellipsis. -/
theorem response_shaping_spec_witness :
    pyLen aaa250 = 250 ∧
    truncateResponse aaa250 = pyTake aaa250 max_response_length ++ "..." := by
  have hlen : pyLen aaa250 = 250 := by
    show (List.replicate 250 'a').length = 250
    rw [List.length_replicate]
  have hns : ∀ c ∈ aaa250.toList, c ≠ ' ' := by
    intro c hcm
    have h2 : c ∈ List.replicate 250 'a' := hcm
    rw [List.eq_of_mem_replicate h2]
    decide
  exact ⟨hlen, ((response_shaping_spec aaa250).2.1 hlen hns).1⟩

end WhatsappAgent
